import Mathlib

/-!
Shallow embedding of the multi-provider model-comparison chat app
(store in `src/store/index.ts`, provider adapters in the AI service
module, fan-out orchestrator in `src/App.tsx`).

JavaScript `Date` values are modelled as natural numbers supplied to
each operation as an explicit `now` argument (one reading of the clock
per synchronous store operation).  JavaScript numbers are modelled as
exact rationals.  JavaScript objects used as string-keyed records are
modelled as association lists with the spread-update semantics
`aset` (replace the first binding of the key, else append).
-/

namespace MT

/-- Provider tag, from the `AIProvider` union type. -/
inductive AIProvider where
  | deepseek | aliyun | volcengine | kimi | claude
deriving DecidableEq, Repr

/-- Message role union. -/
inductive Role where
  | user | assistant | system
deriving DecidableEq, Repr

/-- The `Message` interface. -/
structure Message where
  id : String
  role : Role
  content : String
  timestamp : Nat
  images : Option (List String) := none
deriving DecidableEq, Repr

/-- The `ModelResponse` interface. -/
structure ModelResponse where
  modelId : String
  content : String
  loading : Bool
  error : Option String := none
  responseTime : Option Nat := none
  tokens : Option Nat := none
  cost : Option ℚ := none
  timestamp : Nat
deriving DecidableEq, Repr

/-- Association list with JavaScript object-spread update semantics. -/
def aset {α : Type} : List (String × α) → String → α → List (String × α)
  | [], k, v => [(k, v)]
  | (k', v') :: rest, k, v =>
    if k' = k then (k, v) :: rest else (k', v') :: aset rest k v

/-- Key lookup in an association list (first binding wins, as in JS objects). -/
def alookup {α : Type} : List (String × α) → String → Option α
  | [], _ => none
  | (k', v') :: rest, k => if k' = k then some v' else alookup rest k

theorem alookup_aset_self {α : Type} (l : List (String × α)) (k : String) (v : α) :
    alookup (aset l k v) k = some v := by
  induction l with
  | nil => simp [aset, alookup]
  | cons p rest ih =>
    by_cases h : p.1 = k
    · simp [aset, alookup, h]
    · simp [aset, alookup, h, ih]

theorem alookup_aset_ne {α : Type} (l : List (String × α)) (k k' : String) (v : α)
    (h : k ≠ k') : alookup (aset l k v) k' = alookup l k' := by
  induction l with
  | nil => simp [aset, alookup, h]
  | cons p rest ih =>
    by_cases hp : p.1 = k
    · simp [aset, alookup, hp, h]
    · simp only [aset, alookup, hp, if_false, ite_false]
      by_cases hp' : p.1 = k'
      · simp [alookup, hp']
      · simp [alookup, hp', ih]

/-- The `ChatSession` interface.  `responses` is the two-level
`modelId -> messageId -> ModelResponse` record. -/
structure ChatSession where
  id : String
  title : Option String := none
  systemPrompt : String
  selectedModels : List String
  messages : List Message
  responses : List (String × List (String × ModelResponse))
  createdAt : Nat
  updatedAt : Nat
  model : String
  provider : AIProvider
  tokenCount : Nat
  cost : ℚ
  temperature : ℚ
  maxTokens : Nat
deriving DecidableEq, Repr

/-- The per-provider API-key record. -/
structure ApiKeys where
  deepseek : String
  aliyun : String
  volcengine : String
  kimi : String
  claude : String
deriving DecidableEq, Repr

/-- The slice of the zustand store state that the verified operations touch. -/
structure StoreState where
  apiKeys : ApiKeys
  selectedModels : List String
  currentSession : Option ChatSession
  sessions : List ChatSession
  isLoading : Bool
  systemPrompt : String
  totalTokens : Nat
  totalCost : ℚ
deriving DecidableEq, Repr

/-- Looks up the response slot `(modelId, messageId)` on the current session,
the read performed by `updateModelResponse` / `appendToModelResponse`
(`state.currentSession.responses[modelId]?.[messageId]`). -/
def slotLookup (st : StoreState) (modelId messageId : String) : Option ModelResponse :=
  st.currentSession.bind fun cur =>
    (alookup cur.responses modelId).bind fun inner => alookup inner messageId

/-- The inner `messageId -> ModelResponse` record for one model on the
current session, `none` when there is no current session or no binding. -/
def innerMapO (st : StoreState) (modelId : String) :
    Option (List (String × ModelResponse)) :=
  st.currentSession.bind fun cur => alookup cur.responses modelId

/-- Write-through helper shared by every session-mutating store action:
replace the current session with `upd` and map it over the sessions list
by id, exactly the
`{currentSession: updatedSession, sessions: state.sessions.map(...)}` pattern. -/
def writeSession (st : StoreState) (upd : ChatSession) : StoreState :=
  { st with
    currentSession := some upd,
    sessions := st.sessions.map fun s => if s.id = upd.id then upd else s }

/-- The selected-models update performed by `toggleModel`: remove the id
when present, else append it. -/
def toggleList (l : List String) (modelId : String) : List String :=
  if l.contains modelId then l.filter (fun id => id ≠ modelId)
  else l ++ [modelId]

/-- Store action `toggleModel`. -/
def toggleModel (st : StoreState) (modelId : String) : StoreState :=
  { st with selectedModels := toggleList st.selectedModels modelId }

/-- Store action `loadSession`: find the session by id; when found, make it
current and adopt its selected models and system prompt. -/
def loadSession (st : StoreState) (sessionId : String) : StoreState :=
  match st.sessions.find? (fun s => s.id == sessionId) with
  | some session =>
    { st with
      currentSession := some session,
      selectedModels := session.selectedModels,
      systemPrompt := session.systemPrompt }
  | none => st

/-- Store action `updateSessionTitle`. -/
def updateSessionTitle (st : StoreState) (sessionId title : String) (now : Nat) :
    StoreState :=
  { st with
    sessions := st.sessions.map fun session =>
      if session.id = sessionId then
        { session with title := some title, updatedAt := now }
      else session,
    currentSession :=
      match st.currentSession with
      | some c =>
        if c.id = sessionId then some { c with title := some title, updatedAt := now }
        else some c
      | none => none }

/-- Store action `addModelResponse`: install `response` at
`responses[modelId][messageId]` on the current session (spreading the
possibly-absent inner record), then write through to the sessions list. -/
def addModelResponse (st : StoreState) (modelId messageId : String)
    (response : ModelResponse) (now : Nat) : StoreState :=
  match st.currentSession with
  | none => st
  | some cur =>
    let inner := (alookup cur.responses modelId).getD []
    let upd := { cur with
      responses := aset cur.responses modelId (aset inner messageId response),
      updatedAt := now }
    writeSession st upd

/-- A `Partial<ModelResponse>` update record: `none` fields are absent from
the update object and keep the current slot's value under object spread. -/
structure ModelResponsePatch where
  modelId : Option String := none
  content : Option String := none
  loading : Option Bool := none
  error : Option String := none
  responseTime : Option Nat := none
  tokens : Option Nat := none
  cost : Option ℚ := none
  timestamp : Option Nat := none
deriving DecidableEq, Repr

/-- Object spread `{...currentResponse, ...updates}`. -/
def applyPatch (r : ModelResponse) (u : ModelResponsePatch) : ModelResponse :=
  { modelId := u.modelId.getD r.modelId
    content := u.content.getD r.content
    loading := u.loading.getD r.loading
    error := match u.error with | some e => some e | none => r.error
    responseTime := match u.responseTime with | some t => some t | none => r.responseTime
    tokens := match u.tokens with | some t => some t | none => r.tokens
    cost := match u.cost with | some c => some c | none => r.cost
    timestamp := u.timestamp.getD r.timestamp }

/-- Store action `updateModelResponse`: a no-op unless the slot exists,
else merge the patch into the slot and write through. -/
def updateModelResponse (st : StoreState) (modelId messageId : String)
    (updates : ModelResponsePatch) (now : Nat) : StoreState :=
  match st.currentSession with
  | none => st
  | some cur =>
    match (alookup cur.responses modelId).bind (fun inner => alookup inner messageId) with
    | none => st
    | some currentResponse =>
      let inner := (alookup cur.responses modelId).getD []
      let upd := { cur with
        responses := aset cur.responses modelId
          (aset inner messageId (applyPatch currentResponse updates)),
        updatedAt := now }
      writeSession st upd

/-- Store action `appendToModelResponse`: a no-op unless the slot exists,
else append `content` to the slot's content and write through. -/
def appendToModelResponse (st : StoreState) (modelId messageId content : String)
    (now : Nat) : StoreState :=
  match st.currentSession with
  | none => st
  | some cur =>
    match (alookup cur.responses modelId).bind (fun inner => alookup inner messageId) with
    | none => st
    | some currentResponse =>
      let inner := (alookup cur.responses modelId).getD []
      let upd := { cur with
        responses := aset cur.responses modelId
          (aset inner messageId
            { currentResponse with content := currentResponse.content ++ content }),
        updatedAt := now }
      writeSession st upd

/-- A `ModelConfig` entry of `AVAILABLE_MODELS`. -/
structure ModelConfig where
  id : String
  name : String
  provider : AIProvider
  modelId : String
  maxTokens : Nat
  temperature : ℚ
  supportVision : Bool
  costPerToken : ℚ
deriving DecidableEq, Repr

/-- The `AVAILABLE_MODELS` table from `src/lib/models.ts`. -/
def AVAILABLE_MODELS : List ModelConfig :=
  [ ⟨"deepseek-chat", "DeepSeek V3 0324", .deepseek, "deepseek-chat",
      4096, 0.7, false, 0.0000014⟩,
    ⟨"deepseek-reasoner", "DeepSeek R1 0528", .deepseek, "deepseek-reasoner",
      4096, 0.7, false, 0.000055⟩,
    ⟨"qwen-turbo", "通义千问 Turbo", .aliyun, "qwen-turbo",
      1500, 0.7, false, 0.0000008⟩,
    ⟨"qwen-plus", "通义千问 Plus", .aliyun, "qwen-plus",
      2000, 0.7, false, 0.000004⟩,
    ⟨"qwen-max", "通义千问 Max", .aliyun, "qwen-max",
      2000, 0.7, false, 0.00002⟩,
    ⟨"qwen2-57b-instruct", "通义千问2-57B", .aliyun, "qwen2-57b-a14b-instruct",
      2000, 0.7, false, 0.000001⟩,
    ⟨"doubao-pro-32k", "豆包 Pro 32K", .volcengine, "ep-20250424184643-vjbdz",
      4096, 0.7, false, 0.0000005⟩,
    ⟨"doubao-pro-32k-241215", "豆包 1.5 pro 32k", .volcengine, "ep-20250424184104-trxs8",
      4096, 0.7, false, 0.0000005⟩,
    ⟨"doubao-pro-256k", "豆包 Pro 256K", .volcengine, "doubao-pro-256k-241115",
      4096, 0.7, false, 0.000001⟩,
    ⟨"doubao-vision-pro", "豆包 Vision Pro", .volcengine, "doubao-1.5-vision-pro-250328",
      4096, 0.7, true, 0.000002⟩,
    ⟨"moonshot-v1-8k", "Kimi V1 8K", .kimi, "moonshot-v1-8k",
      2048, 0.3, false, 0.000012⟩,
    ⟨"moonshot-v1-32k", "Kimi V1 32K", .kimi, "moonshot-v1-32k",
      8192, 0.3, false, 0.000024⟩,
    ⟨"moonshot-v1-128k", "Kimi V1 128K", .kimi, "moonshot-v1-128k",
      16384, 0.3, false, 0.00006⟩,
    ⟨"claude-sonnet-4-20250514", "Claude Sonnet 4", .claude, "claude-sonnet-4-20250514",
      4096, 0.7, false, 0.000003⟩ ]

/-- JavaScript `selectedModels[0] || 'deepseek-chat'` (empty string is falsy). -/
def firstSelectedModel (selected : List String) : String :=
  match selected.head? with
  | some s => if s = "" then "deepseek-chat" else s
  | none => "deepseek-chat"

/-- Store action `createNewSession`.  `sid` stands for the `generateId()`
call and `now` for the `new Date()` readings. -/
def createNewSession (st : StoreState) (sid : String) (now : Nat) : StoreState :=
  let first := firstSelectedModel st.selectedModels
  let newSession : ChatSession :=
    { id := sid
      title := none
      systemPrompt := st.systemPrompt
      selectedModels := st.selectedModels
      messages := []
      responses := []
      createdAt := now
      updatedAt := now
      model := first
      provider :=
        ((AVAILABLE_MODELS.find? (fun m => m.id == first)).map (·.provider)).getD .deepseek
      tokenCount := 0
      cost := 0
      temperature := 0.7
      maxTokens := 4096 }
  { st with
    currentSession := some newSession,
    sessions := newSession :: st.sessions }

/-- Store action `addMessage` (returns the new message id).  When no session
is current it first runs `createNewSession`; the asynchronous
`generateSessionTitle` kick-off performs no synchronous store write and is
therefore not part of this step.  `sid` models the `generateId()` used for a
fresh session, `msgId` the one used for the message. -/
def addMessage (st : StoreState) (content : String) (images : Option (List String))
    (sid msgId : String) (now : Nat) : StoreState × String :=
  match st.currentSession with
  | none =>
    let st' := createNewSession st sid now
    match st'.currentSession with
    | some newSession =>
      let message : Message :=
        { id := msgId, role := .user, content := content, timestamp := now,
          images := images }
      let upd := { newSession with
        messages := newSession.messages ++ [message], updatedAt := now }
      ({ st' with
          currentSession := some upd,
          sessions := st'.sessions.map fun s => if s.id = newSession.id then upd else s },
        message.id)
    | none => (st', "")
  | some _ =>
    let message : Message :=
      { id := msgId, role := .user, content := content, timestamp := now,
        images := images }
    let st' :=
      match st.currentSession with
      | none => st
      | some cur =>
        let upd := { cur with
          messages := cur.messages ++ [message], updatedAt := now }
        writeSession st upd
    (st', message.id)

/-- JavaScript `prices[model] || fallback` over a static price table
(a missing key and a zero price both fall back). -/
def priceOr (table : List (String × ℚ)) (model : String) (fallback : ℚ) : ℚ :=
  match alookup table model with
  | some p => if p = 0 then fallback else p
  | none => fallback

/-- DeepSeek price table (USD per million tokens). -/
def DeepSeekService.prices : List (String × ℚ) :=
  [("deepseek-chat", 0.14), ("deepseek-coder", 0.14), ("deepseek-reasoner", 55)]

/-- `DeepSeekService.calculateCost`. -/
def DeepSeekService.calculateCost (tokens : ℚ) (model : String) : ℚ :=
  (tokens / 1000000) * priceOr DeepSeekService.prices model 0.14

/-- Aliyun price table (USD per million tokens). -/
def AliyunService.prices : List (String × ℚ) :=
  [("qwen-turbo", 0.8), ("qwen-plus", 4), ("qwen-max", 20),
   ("qwen2-57b-a14b-instruct", 2)]

/-- `AliyunService.calculateCost`. -/
def AliyunService.calculateCost (tokens : ℚ) (model : String) : ℚ :=
  (tokens / 1000000) * priceOr AliyunService.prices model 1

/-- Volcengine price table (USD per million tokens). -/
def VolcengineService.prices : List (String × ℚ) :=
  [("ep-20250424184643-vjbdz", 0.5), ("doubao-pro-256k-241115", 1),
   ("doubao-1.5-vision-pro-250328", 2)]

/-- `VolcengineService.calculateCost`. -/
def VolcengineService.calculateCost (tokens : ℚ) (model : String) : ℚ :=
  (tokens / 1000000) * priceOr VolcengineService.prices model 1

/-- Kimi price table (USD per million tokens). -/
def KimiService.prices : List (String × ℚ) :=
  [("moonshot-v1-8k", 12), ("moonshot-v1-32k", 24), ("moonshot-v1-128k", 60)]

/-- `KimiService.calculateCost`. -/
def KimiService.calculateCost (tokens : ℚ) (model : String) : ℚ :=
  (tokens / 1000000) * priceOr KimiService.prices model 12

/-- Claude price table (USD per token, the source stores `price / 1000000`). -/
def ClaudeService.prices : List (String × ℚ) :=
  [("claude-sonnet-3-5-20240620", 3 / 1000000),
   ("claude-opus-20240229", 15 / 1000000),
   ("claude-sonnet-20240229", 3 / 1000000),
   ("claude-haiku-20240307", (0.25 : ℚ) / 1000000),
   ("claude-3-sonnet-20240229", 3 / 1000000)]

/-- `ClaudeService.calculateCost` (multiplies tokens by a per-token rate). -/
def ClaudeService.calculateCost (tokens : ℚ) (model : String) : ℚ :=
  tokens * priceOr ClaudeService.prices model (3 / 1000000)

/-- Result of the credential pre-filter stage of `handleSendMessage`
(`App.tsx`): the models actually dispatched and whether the synchronous
`window.alert` notification fired.  An empty `dispatched` list means the
function returns without issuing any network call. -/
structure DispatchResult where
  dispatched : List ModelConfig
  alerted : Bool
deriving DecidableEq, Repr

/-- The dispatch-set computation of `handleSendMessage`: select the active
models, and only when a Volcengine model is selected while the Volcengine
key is blank, alert and drop the Volcengine models (returning early if that
empties the list). -/
def computeDispatch (keys : ApiKeys) (selectedModels : List String) : DispatchResult :=
  let activeModels := AVAILABLE_MODELS.filter (fun m => selectedModels.contains m.id)
  let needVolcengine := activeModels.any (fun m => m.provider == AIProvider.volcengine)
  let hasVolcengineKey := keys.volcengine ≠ ""
  if needVolcengine ∧ ¬ hasVolcengineKey then
    { dispatched := activeModels.filter (fun m => ¬ (m.provider == AIProvider.volcengine)),
      alerted := true }
  else
    { dispatched := activeModels, alerted := false }

/-- A chunk passed to the `onChunk` stream callback
(the `StreamChunk` interface). -/
structure StreamChunk where
  content : String
  finished : Bool
  tokens : Option Nat := none
  cost : Option ℚ := none
deriving DecidableEq, Repr

/-- The result of `JSON.parse` on one SSE data payload, as consumed by the
adapters: the extracted delta `parsed.choices?.[0]?.delta?.content || ''`
and the optional `parsed.usage?.total_tokens`. -/
structure SSEEvent where
  delta : String
  usage : Option Nat := none
deriving DecidableEq, Repr

/-- Mutable state of an adapter's stream-read loop: accumulated `content`,
latest `tokens` figure, and the chunks emitted to `onChunk` so far
(in emission order). -/
structure LoopState where
  content : String
  tokens : Nat
  emitted : List StreamChunk
deriving DecidableEq, Repr

/-- JavaScript `line.startsWith(p)`. -/
def jsStartsWith (s p : String) : Bool :=
  p.data.isPrefixOf s.data

/-- JavaScript `s.slice(n)` for a non-negative `n`. -/
def jsDrop (s : String) (n : Nat) : String :=
  ⟨s.data.drop n⟩

/-- JavaScript `s.trim()`: strip leading and trailing whitespace. -/
def jsTrim (s : String) : String :=
  ⟨(((s.data.dropWhile Char.isWhitespace).reverse).dropWhile Char.isWhitespace).reverse⟩

/-- Splits a character list at every newline character
(JavaScript `s.split('\n')`). -/
def splitNlChars : List Char → List Char → List (List Char)
  | [], acc => [acc.reverse]
  | c :: rest, acc =>
    if c = '\n' then acc.reverse :: splitNlChars rest []
    else splitNlChars rest (c :: acc)

/-- JavaScript `chunk.split('\n')`. -/
def jsSplitNl (s : String) : List String :=
  (splitNlChars s.data []).map (fun l => ⟨l⟩)

/-- Processes the lines of one decoded network chunk, exactly as the
`for (const line of lines)` body shared by every adapter's
`sendMessageStream`: `data: `-prefixed lines are unwrapped and trimmed; a
`[DONE]` sentinel emits a terminal chunk and breaks out of the line loop;
other non-empty payloads are parsed (`parse` models `JSON.parse` plus the
delta/usage extraction, `none` for a parse error, which is skipped); a
non-empty delta is accumulated and emitted un-finished; a truthy
`usage.total_tokens` updates the running token count. -/
def processLines (parse : String → Option SSEEvent) :
    LoopState → List String → LoopState
  | st, [] => st
  | st, line :: rest =>
    if jsStartsWith line "data: " then
      let data := jsTrim (jsDrop line 6)
      if data = "[DONE]" then
        { st with emitted := st.emitted ++ [⟨"", true, some st.tokens, none⟩] }
      else if data ≠ "" then
        match parse data with
        | some ev =>
          let st' :=
            if ev.delta ≠ "" then
              { st with
                content := st.content ++ ev.delta,
                emitted := st.emitted ++ [⟨ev.delta, false, none, none⟩] }
            else st
          let st'' :=
            match ev.usage with
            | some t => if t ≠ 0 then { st' with tokens := t } else st'
            | none => st'
          processLines parse st'' rest
        | none => processLines parse st rest
      else processLines parse st rest
    else processLines parse st rest

/-- The `while (true) { reader.read() ... }` loop: each network read yields
one decoded string, split on newlines and fed to the line loop; the loop
ends when the body is exhausted. -/
def runReadLoop (parse : String → Option SSEEvent) :
    LoopState → List String → LoopState
  | st, [] => st
  | st, chunk :: rest =>
    runReadLoop parse (processLines parse st (jsSplitNl chunk)) rest

/-- Chunks emitted by `DeepSeekService.sendMessageStream` on an OK response
whose body delivers `reads` (the same loop shape is used verbatim by
`KimiService` and `ClaudeService`): the read loop runs, then one more
terminal chunk is unconditionally emitted after the loop. -/
def deepSeekStreamEmits (parse : String → Option SSEEvent)
    (reads : List String) : List StreamChunk :=
  let st := runReadLoop parse ⟨"", 0, []⟩ reads
  st.emitted ++ [⟨"", true, some st.tokens, none⟩]

/-- Chunks emitted by `AliyunService.sendMessageStream` on an OK response
whose body delivers `reads` (the same loop shape is used verbatim by
`VolcengineService`): only the read loop itself emits chunks; nothing is
emitted after the loop ends. -/
def aliyunStreamEmits (parse : String → Option SSEEvent)
    (reads : List String) : List StreamChunk :=
  (runReadLoop parse ⟨"", 0, []⟩ reads).emitted

/-- Number of terminal (`finished = true`) chunks in an emission list. -/
def terminalCount (l : List StreamChunk) : Nat :=
  (l.filter (fun c => c.finished)).length

/-- Whether one decoded network chunk contains a `data: [DONE]` line. -/
def hasDoneLine (lines : List String) : Bool :=
  lines.any (fun line =>
    jsStartsWith line "data: " && (jsTrim (jsDrop line 6) == "[DONE]"))

/-- Number of network reads that contain a `[DONE]` sentinel line. -/
def doneReadCount (reads : List String) : Nat :=
  (reads.filter (fun c => hasDoneLine (jsSplitNl c))).length

theorem terminalCount_append_one (l : List StreamChunk) (c : StreamChunk) :
    terminalCount (l ++ [c]) = terminalCount l + (if c.finished then 1 else 0) := by
  by_cases h : c.finished <;> simp [terminalCount, List.filter_append, h]

theorem processLines_terminalCount (parse : String → Option SSEEvent)
    (lines : List String) (st : LoopState) :
    terminalCount (processLines parse st lines).emitted =
      terminalCount st.emitted + (if hasDoneLine lines then 1 else 0) := by
  induction lines generalizing st with
  | nil => simp [processLines, hasDoneLine]
  | cons line rest ih =>
    by_cases h1 : jsStartsWith line "data: "
    · by_cases h2 : jsTrim (jsDrop line 6) = "[DONE]"
      · simp [processLines, h1, h2, hasDoneLine, terminalCount_append_one]
      · have hline : hasDoneLine (line :: rest) = hasDoneLine rest := by
          simp [hasDoneLine, h1, h2]
        by_cases h3 : jsTrim (jsDrop line 6) = ""
        · simp [processLines, h1, h2, h3, hline, ih]
        · cases hp : parse (jsTrim (jsDrop line 6)) with
          | none => simp [processLines, h1, h2, h3, hp, hline, ih]
          | some ev =>
            cases ev with
            | mk delta usage =>
              by_cases hd : delta = "" <;> cases usage with
              | none =>
                simp [processLines, h1, h2, h3, hp, hd, hline, ih,
                  terminalCount_append_one]
              | some t =>
                by_cases ht : t = 0 <;>
                  simp [processLines, h1, h2, h3, hp, hd, ht, hline, ih,
                    terminalCount_append_one]
    · have hline : hasDoneLine (line :: rest) = hasDoneLine rest := by
        simp [hasDoneLine, h1]
      simp [processLines, h1, hline, ih]

theorem runReadLoop_terminalCount (parse : String → Option SSEEvent)
    (reads : List String) (st : LoopState) :
    terminalCount (runReadLoop parse st reads).emitted =
      terminalCount st.emitted + doneReadCount reads := by
  induction reads generalizing st with
  | nil => simp [runReadLoop, doneReadCount]
  | cons c rest ih =>
    by_cases h : hasDoneLine (jsSplitNl c) <;>
      simp [runReadLoop, doneReadCount, ih, processLines_terminalCount, h,
        List.filter_cons] <;> omega

/-- C1 counterexample: on a successfully-read body whose single network
chunk is exactly `data: [DONE]`, the DeepSeek adapter invokes `onChunk`
with a terminal chunk twice (once at the sentinel and once more after the
read loop), not exactly once as the claim states. -/
theorem c1_terminal_chunk_not_exactly_once :
    ¬ (terminalCount
        (deepSeekStreamEmits (fun _ => none) ["data: [DONE]"]) = 1) := by
  decide

/-- C1 (amended): when the HTTP response is OK and the body is read to the
end, the DeepSeek-style adapters (DeepSeek, Kimi, Claude) emit one terminal
chunk per network read containing a `data: [DONE]` sentinel line plus one
unconditional terminal chunk after the read loop — so exactly once
precisely when no sentinel arrived — while the Aliyun-style adapters
(Aliyun, Volcengine) emit exactly one terminal chunk per sentinel-carrying
read and none after the loop, so they emit no terminal chunk at all when no
sentinel arrived. -/
theorem c1_terminal_chunk_counts (parse : String → Option SSEEvent)
    (reads : List String) :
    terminalCount (deepSeekStreamEmits parse reads) = doneReadCount reads + 1 ∧
    terminalCount (aliyunStreamEmits parse reads) = doneReadCount reads := by
  have h := runReadLoop_terminalCount parse reads ⟨"", 0, []⟩
  have h0 : terminalCount (⟨"", 0, []⟩ : LoopState).emitted = 0 := by
    simp [terminalCount]
  rw [h0, Nat.zero_add] at h
  constructor
  · simp [deepSeekStreamEmits, terminalCount_append_one, h]
  · simpa only [aliyunStreamEmits] using h

/-- Concatenation of a list of strings in order. -/
def concatAll (l : List String) : String := l.foldl (· ++ ·) ""

theorem foldl_append_eq (l : List String) (s : String) :
    l.foldl (· ++ ·) s = s ++ concatAll l := by
  induction l generalizing s with
  | nil => simp [concatAll]
  | cons a rest ih =>
    simp only [concatAll, List.foldl_cons]
    rw [ih (s ++ a), ih ("" ++ a)]
    simp [String.append_assoc]

theorem concatAll_cons (a : String) (l : List String) :
    concatAll (a :: l) = a ++ concatAll l := by
  simp only [concatAll, List.foldl_cons]
  simpa using foldl_append_eq l a

/-- A sequence of `appendToModelResponse` calls targeting one slot, each
call carrying its delta text and its clock reading. -/
def applyAppendCalls (modelId messageId : String) (calls : List (String × Nat))
    (st : StoreState) : StoreState :=
  calls.foldl (fun s c => appendToModelResponse s modelId messageId c.1 c.2) st

theorem appendToModelResponse_slot (st : StoreState) (modelId messageId d : String)
    (now : Nat) (r : ModelResponse) (h : slotLookup st modelId messageId = some r) :
    slotLookup (appendToModelResponse st modelId messageId d now) modelId messageId
      = some { r with content := r.content ++ d } := by
  cases hcur : st.currentSession with
  | none => simp [slotLookup, hcur] at h
  | some cur =>
    have hbind : (alookup cur.responses modelId).bind
        (fun inner => alookup inner messageId) = some r := by
      simpa [slotLookup, hcur] using h
    cases hin : alookup cur.responses modelId with
    | none => simp [hin] at hbind
    | some inner =>
      have hr : alookup inner messageId = some r := by simpa [hin] using hbind
      simp only [appendToModelResponse, hcur, hbind, hin, hr, Option.getD_some]
      simp [slotLookup, writeSession, alookup_aset_self, hr]

/-- C2: on an existing response slot of the current session, a finite
sequence of `appendToModelResponse` calls leaves the slot equal to its
initial value with the deltas concatenated onto its content in call order
(no delta reordered or dropped). -/
theorem c2_append_concatenation (modelId messageId : String)
    (calls : List (String × Nat)) (st : StoreState) (r : ModelResponse)
    (h : slotLookup st modelId messageId = some r) :
    slotLookup (applyAppendCalls modelId messageId calls st) modelId messageId
      = some { r with content := r.content ++ concatAll (calls.map Prod.fst) } := by
  induction calls generalizing st r with
  | nil =>
    simpa [applyAppendCalls, concatAll, String.append_empty] using h
  | cons c rest ih =>
    have hstep := appendToModelResponse_slot st modelId messageId c.1 c.2 r h
    have hrec := ih (appendToModelResponse st modelId messageId c.1 c.2) _ hstep
    simp only [applyAppendCalls, List.foldl_cons] at hrec ⊢
    rw [hrec]
    simp [concatAll_cons, String.append_assoc]

/-- The store's initial state (the literal initial values of the zustand
store, including the built-in Volcengine key). -/
def initialState : StoreState :=
  { apiKeys :=
      { deepseek := "", aliyun := "",
        volcengine := "93a51fb1-9701-4d3b-b905-a4457c4a3776",
        kimi := "", claude := "" }
    selectedModels := ["deepseek-chat", "qwen-turbo", "moonshot-v1-8k"]
    currentSession := none
    sessions := []
    isLoading := false
    systemPrompt := "你是一个有用的AI助手。"
    totalTokens := 0
    totalCost := 0 }

/-- A concrete in-flight response slot used by the concrete witnesses. -/
def sampleResponse : ModelResponse :=
  { modelId := "deepseek-chat", content := "He", loading := true, timestamp := 1 }

/-- A concrete session holding `sampleResponse` used by the concrete
witnesses. -/
def sampleSession : ChatSession :=
  { id := "s1", title := some "会话一", systemPrompt := "sp"
    selectedModels := ["deepseek-chat"]
    messages := [{ id := "m1", role := .user, content := "Hello", timestamp := 1 }]
    responses := [("deepseek-chat", [("m1", sampleResponse)])]
    createdAt := 0, updatedAt := 1, model := "deepseek-chat"
    provider := .deepseek, tokenCount := 0, cost := 0
    temperature := 0.7, maxTokens := 4096 }

/-- A concrete store state whose current session is `sampleSession`. -/
def sampleState : StoreState :=
  { initialState with
    currentSession := some sampleSession
    sessions := [sampleSession] }

/-- C2 witness: streaming `"ll"` then `"o"` into the sample slot yields
content `"Hello"`. -/
theorem c2_append_concatenation_witness :
    slotLookup sampleState "deepseek-chat" "m1" = some sampleResponse ∧
    slotLookup (applyAppendCalls "deepseek-chat" "m1" [("ll", 2), ("o", 3)] sampleState)
        "deepseek-chat" "m1"
      = some { sampleResponse with content := "Hello" } :=
  ⟨rfl,
    c2_append_concatenation "deepseek-chat" "m1" [("ll", 2), ("o", 3)]
      sampleState sampleResponse rfl⟩

/-- C5: when the targeted `(modelId, messageId)` slot does not exist on the
current session — including when there is no current session at all —
`appendToModelResponse` returns the store state unchanged (and, being a
total function, raises no error). -/
theorem c5_append_missing_slot_noop (st : StoreState)
    (modelId messageId content : String) (now : Nat)
    (h : slotLookup st modelId messageId = none) :
    appendToModelResponse st modelId messageId content now = st := by
  cases hcur : st.currentSession with
  | none => simp [appendToModelResponse, hcur]
  | some cur =>
    have hbind : (alookup cur.responses modelId).bind
        (fun inner => alookup inner messageId) = none := by
      simpa [slotLookup, hcur] using h
    simp [appendToModelResponse, hcur, hbind]

/-- C5 witness: appending into the empty initial store (no current session)
changes nothing. -/
theorem c5_append_missing_slot_noop_witness :
    slotLookup initialState "deepseek-chat" "m1" = none ∧
    appendToModelResponse initialState "deepseek-chat" "m1" "hi" 5 = initialState :=
  ⟨rfl, c5_append_missing_slot_noop initialState "deepseek-chat" "m1" "hi" 5 rfl⟩

theorem mem_toggleList_twice (l : List String) (mid x : String) :
    x ∈ toggleList (toggleList l mid) mid ↔ x ∈ l := by
  by_cases h : mid ∈ l
  · have hc : l.contains mid = true := by simp [h]
    have hc2 : (l.filter (fun id => id ≠ mid)).contains mid = false := by simp
    simp only [toggleList, hc, if_true, hc2, if_false, Bool.false_eq_true,
      List.mem_append, List.mem_filter, List.mem_singleton, decide_eq_true_eq]
    constructor
    · rintro (⟨hx, _⟩ | rfl)
      · exact hx
      · exact h
    · intro hx
      by_cases hxm : x = mid
      · right; exact hxm
      · left; exact ⟨hx, hxm⟩
  · have hc : l.contains mid = false := by simp [h]
    have hc2 : (l ++ [mid]).contains mid = true := by simp
    have hfilter : (l ++ [mid]).filter (fun id => id ≠ mid) = l := by
      rw [List.filter_append]
      have h1 : [mid].filter (fun id => id ≠ mid) = [] := by simp
      rw [h1, List.append_nil]
      refine List.filter_eq_self.mpr ?_
      intro b hb
      simp only [decide_eq_true_eq]
      exact fun hba => h (hba ▸ hb)
    simp only [toggleList, hc, Bool.false_eq_true, if_false, hc2, if_true, hfilter]

/-- C10: toggling the same model id twice restores the selection membership
exactly — every id is selected afterwards exactly when it was selected
before (the toggled id may move to the end of the list). -/
theorem c10_toggleModel_twice_membership (st : StoreState) (modelId x : String) :
    x ∈ (toggleModel (toggleModel st modelId) modelId).selectedModels ↔
      x ∈ st.selectedModels := by
  simpa [toggleModel] using mem_toggleList_twice st.selectedModels modelId x

/-- C8: every adapter's `calculateCost` is a pure function of
`(tokens, model)`, linear in the token count —
`calculateCost (2 * t) m = 2 * calculateCost t m` for every token count and
every model string — and a model id absent from the adapter's price table
is charged at the provider's default rate instead of raising an error. -/
theorem c8_calculateCost_linear_and_default :
    (∀ (t : ℚ) (m : String),
      DeepSeekService.calculateCost (2 * t) m = 2 * DeepSeekService.calculateCost t m) ∧
    (∀ (t : ℚ) (m : String),
      AliyunService.calculateCost (2 * t) m = 2 * AliyunService.calculateCost t m) ∧
    (∀ (t : ℚ) (m : String),
      VolcengineService.calculateCost (2 * t) m = 2 * VolcengineService.calculateCost t m) ∧
    (∀ (t : ℚ) (m : String),
      KimiService.calculateCost (2 * t) m = 2 * KimiService.calculateCost t m) ∧
    (∀ (t : ℚ) (m : String),
      ClaudeService.calculateCost (2 * t) m = 2 * ClaudeService.calculateCost t m) ∧
    (∀ (t : ℚ) (m : String), alookup DeepSeekService.prices m = none →
      DeepSeekService.calculateCost t m = (t / 1000000) * 0.14) ∧
    (∀ (t : ℚ) (m : String), alookup AliyunService.prices m = none →
      AliyunService.calculateCost t m = (t / 1000000) * 1) ∧
    (∀ (t : ℚ) (m : String), alookup VolcengineService.prices m = none →
      VolcengineService.calculateCost t m = (t / 1000000) * 1) ∧
    (∀ (t : ℚ) (m : String), alookup KimiService.prices m = none →
      KimiService.calculateCost t m = (t / 1000000) * 12) ∧
    (∀ (t : ℚ) (m : String), alookup ClaudeService.prices m = none →
      ClaudeService.calculateCost t m = t * (3 / 1000000)) := by
  refine ⟨?_, ?_, ?_, ?_, ?_, ?_, ?_, ?_, ?_, ?_⟩
  · intro t m; simp [DeepSeekService.calculateCost]; ring
  · intro t m; simp [AliyunService.calculateCost]; ring
  · intro t m; simp [VolcengineService.calculateCost]; ring
  · intro t m; simp [KimiService.calculateCost]; ring
  · intro t m; simp [ClaudeService.calculateCost]; ring
  · intro t m h; simp [DeepSeekService.calculateCost, priceOr, h]
  · intro t m h; simp [AliyunService.calculateCost, priceOr, h]
  · intro t m h; simp [VolcengineService.calculateCost, priceOr, h]
  · intro t m h; simp [KimiService.calculateCost, priceOr, h]
  · intro t m h; simp [ClaudeService.calculateCost, priceOr, h]

/-- C8 witness: linearity at a concrete token count, and the default-rate
fallback at the unknown model id `"gpt-4"` for the two adapters named by
the claim. -/
theorem c8_calculateCost_witness :
    DeepSeekService.calculateCost (2 * 5) "deepseek-chat"
      = 2 * DeepSeekService.calculateCost 5 "deepseek-chat" ∧
    alookup DeepSeekService.prices "gpt-4" = none ∧
    DeepSeekService.calculateCost 3 "gpt-4" = ((3 : ℚ) / 1000000) * 0.14 ∧
    alookup ClaudeService.prices "gpt-4" = none ∧
    ClaudeService.calculateCost 3 "gpt-4" = (3 : ℚ) * (3 / 1000000) :=
  ⟨c8_calculateCost_linear_and_default.1 5 "deepseek-chat",
   by decide,
   c8_calculateCost_linear_and_default.2.2.2.2.2.1 3 "gpt-4" (by decide),
   by decide,
   c8_calculateCost_linear_and_default.2.2.2.2.2.2.2.2.2 3 "gpt-4" (by decide)⟩

/-- The coherence invariant of C9: whenever a session is current, every
sessions-list entry bearing its id is that same session value. -/
def SessionsInv (st : StoreState) : Prop :=
  match st.currentSession with
  | none => True
  | some c => ∀ s ∈ st.sessions, s.id = c.id → s = c

theorem writeThrough_entries (base : List ChatSession) (upd : ChatSession) :
    ∀ s ∈ base.map (fun s => if s.id = upd.id then upd else s),
      s.id = upd.id → s = upd := by
  intro s hs hid
  obtain ⟨a, _, rfl⟩ := List.mem_map.mp hs
  by_cases h : a.id = upd.id
  · simp [h]
  · simp only [h, if_false, ite_false] at hid ⊢

theorem sessionsInv_writeSession (st : StoreState) (upd : ChatSession) :
    SessionsInv (writeSession st upd) :=
  fun s hs hsid => writeThrough_entries st.sessions upd s hs hsid

theorem sessionsInv_addModelResponse (st : StoreState) (modelId messageId : String)
    (r : ModelResponse) (now : Nat) (h : SessionsInv st) :
    SessionsInv (addModelResponse st modelId messageId r now) := by
  cases hcur : st.currentSession with
  | none =>
    simp only [addModelResponse, hcur]
    exact h
  | some cur =>
    simp only [addModelResponse, hcur]
    exact sessionsInv_writeSession st _

theorem sessionsInv_updateModelResponse (st : StoreState) (modelId messageId : String)
    (u : ModelResponsePatch) (now : Nat) (h : SessionsInv st) :
    SessionsInv (updateModelResponse st modelId messageId u now) := by
  cases hcur : st.currentSession with
  | none =>
    simp only [updateModelResponse, hcur]
    exact h
  | some cur =>
    cases hb : (alookup cur.responses modelId).bind
        (fun inner => alookup inner messageId) with
    | none =>
      simp only [updateModelResponse, hcur, hb]
      exact h
    | some r =>
      simp only [updateModelResponse, hcur, hb]
      exact sessionsInv_writeSession st _

theorem sessionsInv_appendToModelResponse (st : StoreState) (modelId messageId c : String)
    (now : Nat) (h : SessionsInv st) :
    SessionsInv (appendToModelResponse st modelId messageId c now) := by
  cases hcur : st.currentSession with
  | none =>
    simp only [appendToModelResponse, hcur]
    exact h
  | some cur =>
    cases hb : (alookup cur.responses modelId).bind
        (fun inner => alookup inner messageId) with
    | none =>
      simp only [appendToModelResponse, hcur, hb]
      exact h
    | some r =>
      simp only [appendToModelResponse, hcur, hb]
      exact sessionsInv_writeSession st _

theorem sessionsInv_updateSessionTitle (st : StoreState) (sessionId title : String)
    (now : Nat) (h : SessionsInv st) :
    SessionsInv (updateSessionTitle st sessionId title now) := by
  cases hcur : st.currentSession with
  | none =>
    have hc : (updateSessionTitle st sessionId title now).currentSession = none := by
      simp [updateSessionTitle, hcur]
    simp [SessionsInv, hc]
  | some c =>
    simp only [SessionsInv, hcur] at h
    have hsess : (updateSessionTitle st sessionId title now).sessions
        = st.sessions.map (fun a =>
            if a.id = sessionId then { a with title := some title, updatedAt := now }
            else a) := rfl
    by_cases hid : c.id = sessionId
    · have hc : (updateSessionTitle st sessionId title now).currentSession
          = some { c with title := some title, updatedAt := now } := by
        simp [updateSessionTitle, hcur, hid]
      simp only [SessionsInv, hc, hsess]
      intro s hs hsid
      obtain ⟨a, ha, rfl⟩ := List.mem_map.mp hs
      by_cases haid : a.id = sessionId
      · rw [if_pos haid] at hsid ⊢
        have hac : a = c := h a ha (haid.trans hid.symm)
        rw [hac]
      · rw [if_neg haid] at hsid ⊢
        have hac : a.id = c.id := by simpa using hsid
        exact absurd (hac.trans hid) haid
    · have hc : (updateSessionTitle st sessionId title now).currentSession = some c := by
        simp [updateSessionTitle, hcur, hid]
      simp only [SessionsInv, hc, hsess]
      intro s hs hsid
      obtain ⟨a, ha, rfl⟩ := List.mem_map.mp hs
      by_cases haid : a.id = sessionId
      · rw [if_pos haid] at hsid ⊢
        have hac : a.id = c.id := by simpa using hsid
        exact absurd (hac.symm.trans haid) hid
      · rw [if_neg haid] at hsid ⊢
        exact h a ha hsid

theorem sessionsInv_addMessage (st : StoreState) (content : String)
    (images : Option (List String)) (sid msgId : String) (now : Nat)
    (h : SessionsInv st) :
    SessionsInv (addMessage st content images sid msgId now).1 := by
  cases hcur : st.currentSession with
  | none =>
    simp only [addMessage, hcur]
    intro s hs hsid
    exact writeThrough_entries _ _ s hs hsid
  | some cur =>
    simp only [addMessage, hcur]
    exact sessionsInv_writeSession st _

/-- C9: every session-mutating store operation (`addMessage`,
`addModelResponse`, `updateModelResponse`, `appendToModelResponse`,
`updateSessionTitle`) preserves the invariant that the sessions-list entry
carrying the current session's id is the current session itself. -/
theorem c9_session_write_through_invariant (st : StoreState) (h : SessionsInv st) :
    (∀ content images sid msgId now,
      SessionsInv (addMessage st content images sid msgId now).1) ∧
    (∀ modelId messageId r now,
      SessionsInv (addModelResponse st modelId messageId r now)) ∧
    (∀ modelId messageId u now,
      SessionsInv (updateModelResponse st modelId messageId u now)) ∧
    (∀ modelId messageId c now,
      SessionsInv (appendToModelResponse st modelId messageId c now)) ∧
    (∀ sessionId title now,
      SessionsInv (updateSessionTitle st sessionId title now)) :=
  ⟨fun content images sid msgId now =>
      sessionsInv_addMessage st content images sid msgId now h,
   fun modelId messageId r now =>
      sessionsInv_addModelResponse st modelId messageId r now h,
   fun modelId messageId u now =>
      sessionsInv_updateModelResponse st modelId messageId u now h,
   fun modelId messageId c now =>
      sessionsInv_appendToModelResponse st modelId messageId c now h,
   fun sessionId title now =>
      sessionsInv_updateSessionTitle st sessionId title now h⟩

/-- C9 witness: the invariant holds on the sample state and is preserved
by a concrete `appendToModelResponse` call on it. -/
theorem c9_session_write_through_invariant_witness :
    SessionsInv sampleState ∧
    SessionsInv (appendToModelResponse sampleState "deepseek-chat" "m1" "llo" 2) :=
  have hInv : SessionsInv sampleState := by
    intro s hs hsid
    simpa [sampleState] using hs
  ⟨hInv,
    (c9_session_write_through_invariant sampleState hInv).2.2.2.1
      "deepseek-chat" "m1" "llo" 2⟩

/-- The response slot stored on one session object. -/
def sessionSlot (s : ChatSession) (modelId messageId : String) : Option ModelResponse :=
  (alookup s.responses modelId).bind fun inner => alookup inner messageId

theorem slotLookup_eq_sessionSlot (st : StoreState) (modelId messageId : String) :
    slotLookup st modelId messageId
      = st.currentSession.bind (fun c => sessionSlot c modelId messageId) := rfl

theorem applyAppendCalls_other_mem (mid msgId : String) (calls : List (String × Nat))
    (st : StoreState) (x s : ChatSession)
    (hcur : st.currentSession = some x) (hs : s ∈ st.sessions) (hne : s.id ≠ x.id) :
    s ∈ (applyAppendCalls mid msgId calls st).sessions := by
  induction calls generalizing st x with
  | nil => simpa [applyAppendCalls] using hs
  | cons call rest ih =>
    simp only [applyAppendCalls, List.foldl_cons]
    cases hb : (alookup x.responses mid).bind (fun inner => alookup inner msgId) with
    | none =>
      have heq : appendToModelResponse st mid msgId call.1 call.2 = st := by
        simp [appendToModelResponse, hcur, hb]
      rw [heq]
      exact ih st x hcur hs hne
    | some r =>
      have heq : appendToModelResponse st mid msgId call.1 call.2
          = writeSession st
              { x with
                responses := aset x.responses mid
                  (aset ((alookup x.responses mid).getD []) msgId
                    { r with content := r.content ++ call.1 }),
                updatedAt := call.2 } := by
        simp [appendToModelResponse, hcur, hb]
      rw [heq]
      refine ih (writeSession st _) _ rfl ?_ hne
      refine List.mem_map.mpr ⟨s, hs, ?_⟩
      simp only [if_neg hne]

theorem applyAppendCalls_current_state (mid msgId : String)
    (calls : List (String × Nat)) (st : StoreState) (c : ChatSession)
    (r : ModelResponse) (hcur : st.currentSession = some c) (hmem : c ∈ st.sessions)
    (hslot : slotLookup st mid msgId = some r) :
    ∃ c', (applyAppendCalls mid msgId calls st).currentSession = some c' ∧
      c' ∈ (applyAppendCalls mid msgId calls st).sessions ∧
      c'.id = c.id ∧
      sessionSlot c' mid msgId
        = some { r with content := r.content ++ concatAll (calls.map Prod.fst) } := by
  induction calls generalizing st c r with
  | nil =>
    refine ⟨c, by simpa [applyAppendCalls] using hcur,
      by simpa [applyAppendCalls] using hmem, rfl, ?_⟩
    have hss : sessionSlot c mid msgId = some r := by
      simpa [slotLookup, hcur, sessionSlot] using hslot
    simp [hss, concatAll, String.append_empty]
  | cons call rest ih =>
    have hb : (alookup c.responses mid).bind (fun inner => alookup inner msgId)
        = some r := by
      simpa [slotLookup, hcur] using hslot
    have heq : appendToModelResponse st mid msgId call.1 call.2
        = writeSession st
            { c with
              responses := aset c.responses mid
                (aset ((alookup c.responses mid).getD []) msgId
                  { r with content := r.content ++ call.1 }),
              updatedAt := call.2 } := by
      simp [appendToModelResponse, hcur, hb]
    have hcur1 : (appendToModelResponse st mid msgId call.1 call.2).currentSession
        = some { c with
            responses := aset c.responses mid
              (aset ((alookup c.responses mid).getD []) msgId
                { r with content := r.content ++ call.1 }),
            updatedAt := call.2 } := by
      rw [heq]; rfl
    have hmem1 : ({ c with
        responses := aset c.responses mid
          (aset ((alookup c.responses mid).getD []) msgId
            { r with content := r.content ++ call.1 }),
        updatedAt := call.2 } : ChatSession)
        ∈ (appendToModelResponse st mid msgId call.1 call.2).sessions := by
      rw [heq]
      refine List.mem_map.mpr ⟨c, hmem, ?_⟩
      simp
    obtain ⟨c', h1, h2, h3, h4⟩ :=
      ih (appendToModelResponse st mid msgId call.1 call.2) _ _ hcur1 hmem1
        (appendToModelResponse_slot st mid msgId call.1 call.2 r hslot)
    simp only [applyAppendCalls, List.foldl_cons]
    refine ⟨c', h1, h2, h3, ?_⟩
    rw [h4]
    simp [concatAll_cons, String.append_assoc]

/-- C3: if a stream's deltas keep arriving after the user switches to a
different session, the original session object in the sessions list keeps
everything streamed before the switch — late `appendToModelResponse` calls
never touch it (they target the new current session and are no-ops there),
so the content is preserved, merely no longer the current view. -/
theorem c3_late_appends_preserve_original_session
    (st : StoreState) (c s₂ : ChatSession) (r : ModelResponse)
    (mid msgId sid : String) (A B : List (String × Nat))
    (hcur : st.currentSession = some c) (hmem : c ∈ st.sessions)
    (hslot : slotLookup st mid msgId = some r)
    (hfind : (applyAppendCalls mid msgId A st).sessions.find?
        (fun s => s.id == sid) = some s₂)
    (hne : s₂.id ≠ c.id) :
    ∃ orig,
      orig ∈ (applyAppendCalls mid msgId B
          (loadSession (applyAppendCalls mid msgId A st) sid)).sessions ∧
      orig.id = c.id ∧
      sessionSlot orig mid msgId
        = some { r with content := r.content ++ concatAll (A.map Prod.fst) } := by
  obtain ⟨c', hc1, hc2, hc3, hc4⟩ :=
    applyAppendCalls_current_state mid msgId A st c r hcur hmem hslot
  have hload : loadSession (applyAppendCalls mid msgId A st) sid
      = { (applyAppendCalls mid msgId A st) with
          currentSession := some s₂,
          selectedModels := s₂.selectedModels,
          systemPrompt := s₂.systemPrompt } := by
    simp [loadSession, hfind]
  refine ⟨c', ?_, hc3, hc4⟩
  rw [hload]
  refine applyAppendCalls_other_mem mid msgId B _ s₂ c' rfl hc2 ?_
  rw [hc3]
  exact hne.symm

/-- A second stored session, distinct from `sampleSession`, used by the
session-switch witness. -/
def otherSession : ChatSession :=
  { sampleSession with id := "s2", title := some "second", responses := [] }

/-- A store state holding both sample sessions with the first current. -/
def twoSessionState : StoreState :=
  { sampleState with sessions := [sampleSession, otherSession] }

/-- C3 witness: stream `"llo"` into the sample slot, switch to session
`"s2"`, stream more; the `"s1"` entry still holds content `"Hello"`. -/
theorem c3_late_appends_preserve_original_session_witness :
    ∃ orig,
      orig ∈ (applyAppendCalls "deepseek-chat" "m1" [("XY", 9)]
          (loadSession (applyAppendCalls "deepseek-chat" "m1" [("llo", 2)]
            twoSessionState) "s2")).sessions ∧
      orig.id = "s1" ∧
      sessionSlot orig "deepseek-chat" "m1"
        = some { sampleResponse with content := "Hello" } :=
  c3_late_appends_preserve_original_session twoSessionState sampleSession
    otherSession sampleResponse "deepseek-chat" "m1" "s2" [("llo", 2)] [("XY", 9)]
    rfl (List.mem_cons_self _ _) rfl rfl (by decide)

/-- C7 counterexample: with the store's initial keys (DeepSeek key blank,
Volcengine key built in) and `deepseek-chat` selected, the DeepSeek model is
NOT dropped from the dispatch set and no synchronous notification fires,
refuting the claim that every selected model whose provider lacks its
credential is dropped and notified before dispatch. -/
theorem c7_missing_key_model_not_dropped :
    initialState.apiKeys.deepseek = "" ∧
    ((computeDispatch initialState.apiKeys ["deepseek-chat"]).dispatched.map
        (fun m => m.id)) = ["deepseek-chat"] ∧
    ((computeDispatch initialState.apiKeys ["deepseek-chat"]).dispatched.map
        (fun m => m.provider)) = [AIProvider.deepseek] ∧
    (computeDispatch initialState.apiKeys ["deepseek-chat"]).alerted = false := by
  decide

/-- C7 (amended): the pre-dispatch credential gate applies to Volcengine
alone — when the Volcengine key is blank, exactly the selected Volcengine
models are dropped before dispatch and the synchronous alert fires exactly
when a Volcengine model was selected; no dispatched model is a Volcengine
model (and when dropping empties the list, the empty dispatch set means no
network call is issued).  Selected models of other providers with blank
keys are dispatched anyway and only fail later at the service registry. -/
theorem c7_volcengine_only_credential_gate (keys : ApiKeys)
    (selected : List String) (h : keys.volcengine = "") :
    (computeDispatch keys selected).dispatched
      = (AVAILABLE_MODELS.filter (fun m => selected.contains m.id)).filter
          (fun m => ¬ (m.provider == AIProvider.volcengine)) ∧
    ((computeDispatch keys selected).alerted
      ↔ (AVAILABLE_MODELS.filter (fun m => selected.contains m.id)).any
          (fun m => m.provider == AIProvider.volcengine) = true) ∧
    (∀ m ∈ (computeDispatch keys selected).dispatched,
      m.provider ≠ AIProvider.volcengine) := by
  by_cases hneed : (AVAILABLE_MODELS.filter (fun m => selected.contains m.id)).any
      (fun m => m.provider == AIProvider.volcengine) = true
  · have hcd : computeDispatch keys selected
        = { dispatched := (AVAILABLE_MODELS.filter
              (fun m => selected.contains m.id)).filter
              (fun m => ¬ (m.provider == AIProvider.volcengine)),
            alerted := true } := by
      have hcond : ((AVAILABLE_MODELS.filter (fun m => selected.contains m.id)).any
          (fun m => m.provider == AIProvider.volcengine) = true) ∧
          ¬ (keys.volcengine ≠ "") := ⟨hneed, by simp [h]⟩
      simp only [computeDispatch]
      rw [if_pos hcond]
    refine ⟨by rw [hcd], by rw [hcd]; simpa using hneed, ?_⟩
    rw [hcd]
    intro m hm
    have hpass := (List.mem_filter.mp hm).2
    simpa using hpass
  · have hcd : computeDispatch keys selected
        = { dispatched := AVAILABLE_MODELS.filter (fun m => selected.contains m.id),
            alerted := false } := by
      have hcond : ¬ (((AVAILABLE_MODELS.filter (fun m => selected.contains m.id)).any
          (fun m => m.provider == AIProvider.volcengine) = true) ∧
          ¬ (keys.volcengine ≠ "")) := fun hc => hneed hc.1
      simp only [computeDispatch]
      rw [if_neg hcond]
    have hnone : ∀ m ∈ AVAILABLE_MODELS.filter (fun m => selected.contains m.id),
        m.provider ≠ AIProvider.volcengine := by
      intro m hm hEq
      exact hneed (List.any_eq_true.mpr ⟨m, hm, by simp [hEq]⟩)
    refine ⟨?_, ?_, ?_⟩
    · rw [hcd]
      exact (List.filter_eq_self.mpr (fun m hm => by simpa using hnone m hm)).symm
    · rw [hcd]
      simp only [Bool.false_eq_true, false_iff]
      exact hneed
    · rw [hcd]
      exact hnone

/-- A key record whose Volcengine credential is blank, for the C7 witness. -/
def blankVolcKeys : ApiKeys :=
  { deepseek := "sk-d", aliyun := "", volcengine := "", kimi := "", claude := "" }

/-- C7 witness: with a blank Volcengine key and one DeepSeek plus one
Volcengine model selected, the gate theorem applies at this concrete
input. -/
theorem c7_volcengine_only_credential_gate_witness :
    blankVolcKeys.volcengine = "" ∧
    ((computeDispatch blankVolcKeys ["deepseek-chat", "doubao-pro-32k"]).dispatched
        = (AVAILABLE_MODELS.filter
            (fun m => (["deepseek-chat", "doubao-pro-32k"] : List String).contains m.id)).filter
            (fun m => ¬ (m.provider == AIProvider.volcengine)) ∧
      ((computeDispatch blankVolcKeys ["deepseek-chat", "doubao-pro-32k"]).alerted
        ↔ (AVAILABLE_MODELS.filter
            (fun m => (["deepseek-chat", "doubao-pro-32k"] : List String).contains m.id)).any
            (fun m => m.provider == AIProvider.volcengine) = true) ∧
      ∀ m ∈ (computeDispatch blankVolcKeys ["deepseek-chat", "doubao-pro-32k"]).dispatched,
        m.provider ≠ AIProvider.volcengine) :=
  ⟨rfl, c7_volcengine_only_credential_gate blankVolcKeys
    ["deepseek-chat", "doubao-pro-32k"] rfl⟩

/-- One store write issued by the fan-out's per-model chunk handlers. -/
inductive StoreOp where
  | add (modelId messageId : String) (r : ModelResponse) (now : Nat)
  | patch (modelId messageId : String) (u : ModelResponsePatch) (now : Nat)
  | append (modelId messageId content : String) (now : Nat)
deriving DecidableEq, Repr

/-- The model a store write targets. -/
def StoreOp.modelId : StoreOp → String
  | .add m _ _ _ => m
  | .patch m _ _ _ => m
  | .append m _ _ _ => m

/-- Executes one store write through the corresponding store action. -/
def applyOp (st : StoreState) : StoreOp → StoreState
  | .add m msg r now => addModelResponse st m msg r now
  | .patch m msg u now => updateModelResponse st m msg u now
  | .append m msg c now => appendToModelResponse st m msg c now

/-- Executes a sequence of store writes in order. -/
def applyOps (ops : List StoreOp) (st : StoreState) : StoreState :=
  ops.foldl applyOp st

/-- The effect of one store write on a single model's inner
`messageId -> ModelResponse` record. -/
def opInnerStep (op : StoreOp) (im : Option (List (String × ModelResponse))) :
    Option (List (String × ModelResponse)) :=
  match op with
  | .add _ msg r _ => some (aset (im.getD []) msg r)
  | .patch _ msg u _ =>
    match im.bind (fun inner => alookup inner msg) with
    | none => im
    | some r => some (aset (im.getD []) msg (applyPatch r u))
  | .append _ msg c _ =>
    match im.bind (fun inner => alookup inner msg) with
    | none => im
    | some r => some (aset (im.getD []) msg { r with content := r.content ++ c })

/-- Folds the abstract inner-record machine over a write sequence. -/
def innerFold (ops : List StoreOp) (im : Option (List (String × ModelResponse))) :
    Option (List (String × ModelResponse)) :=
  ops.foldl (fun i op => opInnerStep op i) im

theorem slotLookup_eq_innerMap (st : StoreState) (m msg : String) :
    slotLookup st m msg = (innerMapO st m).bind (fun inner => alookup inner msg) := by
  cases hcur : st.currentSession <;> simp [slotLookup, innerMapO, hcur]

theorem applyOp_isSome (st : StoreState) (op : StoreOp) :
    (applyOp st op).currentSession.isSome = st.currentSession.isSome := by
  cases op with
  | add m msg r now =>
    cases hcur : st.currentSession with
    | none => simp [applyOp, addModelResponse, hcur]
    | some cur => simp [applyOp, addModelResponse, hcur, writeSession]
  | patch m msg u now =>
    cases hcur : st.currentSession with
    | none => simp [applyOp, updateModelResponse, hcur]
    | some cur =>
      cases hb : (alookup cur.responses m).bind (fun inner => alookup inner msg) with
      | none => simp [applyOp, updateModelResponse, hcur, hb]
      | some r => simp [applyOp, updateModelResponse, hcur, hb, writeSession]
  | append m msg c now =>
    cases hcur : st.currentSession with
    | none => simp [applyOp, appendToModelResponse, hcur]
    | some cur =>
      cases hb : (alookup cur.responses m).bind (fun inner => alookup inner msg) with
      | none => simp [applyOp, appendToModelResponse, hcur, hb]
      | some r => simp [applyOp, appendToModelResponse, hcur, hb, writeSession]

theorem applyOp_innerMapO_other (st : StoreState) (op : StoreOp) (m : String)
    (hm : op.modelId ≠ m) :
    innerMapO (applyOp st op) m = innerMapO st m := by
  cases op with
  | add m' msg r now =>
    cases hcur : st.currentSession with
    | none => simp [applyOp, addModelResponse, hcur]
    | some cur =>
      simp only [StoreOp.modelId] at hm
      simp [applyOp, addModelResponse, hcur, innerMapO, writeSession,
        alookup_aset_ne _ _ _ _ hm]
  | patch m' msg u now =>
    cases hcur : st.currentSession with
    | none => simp [applyOp, updateModelResponse, hcur]
    | some cur =>
      simp only [StoreOp.modelId] at hm
      cases hb : (alookup cur.responses m').bind (fun inner => alookup inner msg) with
      | none => simp [applyOp, updateModelResponse, hcur, hb]
      | some r =>
        simp [applyOp, updateModelResponse, hcur, hb, innerMapO, writeSession,
          alookup_aset_ne _ _ _ _ hm]
  | append m' msg c now =>
    cases hcur : st.currentSession with
    | none => simp [applyOp, appendToModelResponse, hcur]
    | some cur =>
      simp only [StoreOp.modelId] at hm
      cases hb : (alookup cur.responses m').bind (fun inner => alookup inner msg) with
      | none => simp [applyOp, appendToModelResponse, hcur, hb]
      | some r =>
        simp [applyOp, appendToModelResponse, hcur, hb, innerMapO, writeSession,
          alookup_aset_ne _ _ _ _ hm]

theorem applyOp_innerMapO_self (st : StoreState) (op : StoreOp)
    (h : st.currentSession.isSome = true) :
    innerMapO (applyOp st op) op.modelId
      = opInnerStep op (innerMapO st op.modelId) := by
  obtain ⟨cur, hcur⟩ := Option.isSome_iff_exists.mp h
  cases op with
  | add m' msg r now =>
    simp [applyOp, addModelResponse, hcur, innerMapO, writeSession,
      alookup_aset_self, opInnerStep, StoreOp.modelId]
  | patch m' msg u now =>
    cases hb : (alookup cur.responses m').bind (fun inner => alookup inner msg) with
    | none =>
      simp [applyOp, updateModelResponse, hcur, hb, opInnerStep, innerMapO,
        StoreOp.modelId]
    | some r =>
      simp [applyOp, updateModelResponse, hcur, hb, opInnerStep, innerMapO,
        writeSession, alookup_aset_self, StoreOp.modelId]
  | append m' msg c now =>
    cases hb : (alookup cur.responses m').bind (fun inner => alookup inner msg) with
    | none =>
      simp [applyOp, appendToModelResponse, hcur, hb, opInnerStep, innerMapO,
        StoreOp.modelId]
    | some r =>
      simp [applyOp, appendToModelResponse, hcur, hb, opInnerStep, innerMapO,
        writeSession, alookup_aset_self, StoreOp.modelId]

theorem applyOps_innerMapO (ops : List StoreOp) (st : StoreState) (m : String)
    (h : st.currentSession.isSome = true) :
    innerMapO (applyOps ops st) m
      = innerFold (ops.filter (fun op => op.modelId == m)) (innerMapO st m) := by
  induction ops generalizing st with
  | nil => simp [applyOps, innerFold]
  | cons op rest ih =>
    have h' : (applyOp st op).currentSession.isSome = true := by
      rw [applyOp_isSome]; exact h
    have hrec := ih (applyOp st op) h'
    by_cases hm : op.modelId = m
    · have hstep := applyOp_innerMapO_self st op h
      rw [hm] at hstep
      simp only [applyOps, List.foldl_cons] at hrec ⊢
      rw [hrec, hstep]
      simp [List.filter_cons, hm, innerFold]
    · simp only [applyOps, List.foldl_cons] at hrec ⊢
      rw [hrec, applyOp_innerMapO_other st op m hm]
      simp [List.filter_cons, hm]

/-- The observable outcome of one model's streaming call: the chunks its
callback received in order, and the error message if the call threw. -/
structure TaskOutcome where
  chunks : List StreamChunk
  failure : Option String := none
deriving DecidableEq, Repr

/-- The loading response `handleSendMessage` installs at dispatch. -/
def loadingResponse (modelId : String) (now : Nat) : ModelResponse :=
  { modelId := modelId, content := "", loading := true, timestamp := now }

/-- The finalization patch the chunk handler writes on a finished chunk. -/
def finishPatch (rt : Nat) (ch : StreamChunk) : ModelResponsePatch :=
  { loading := some false, responseTime := some rt,
    tokens := some (ch.tokens.getD 0), cost := some (ch.cost.getD 0) }

/-- The patch the catch boundary writes when a model's call throws. -/
def errorPatch (e : String) : ModelResponsePatch :=
  { content := some "", loading := some false, error := some e }

/-- The store write the chunk handler issues for one chunk. -/
def chunkOp (modelId messageId : String) (rt now : Nat) (ch : StreamChunk) : StoreOp :=
  if ch.finished then .patch modelId messageId (finishPatch rt ch) now
  else .append modelId messageId ch.content now

/-- The store writes of one per-model task in program order: install the
loading slot, handle each chunk, and write the error patch at the catch
boundary when the call failed. -/
def taskTrace (modelId messageId : String) (now rt : Nat) (o : TaskOutcome) :
    List StoreOp :=
  .add modelId messageId (loadingResponse modelId now) now ::
    (o.chunks.map (chunkOp modelId messageId rt now) ++
      (match o.failure with
       | some e => [.patch modelId messageId (errorPatch e) now]
       | none => []))

/-- The slot evolution one chunk causes. -/
def chunkEff (rt : Nat) (r : ModelResponse) (ch : StreamChunk) : ModelResponse :=
  if ch.finished then applyPatch r (finishPatch rt ch)
  else { r with content := r.content ++ ch.content }

/-- The final slot value of one task as a pure function of its outcome. -/
def taskFinal (modelId : String) (now rt : Nat) (o : TaskOutcome) : ModelResponse :=
  let base := o.chunks.foldl (chunkEff rt) (loadingResponse modelId now)
  match o.failure with
  | some e => applyPatch base (errorPatch e)
  | none => base

theorem taskTrace_filter_self (m msg : String) (now rt : Nat) (o : TaskOutcome) :
    (taskTrace m msg now rt o).filter (fun op => op.modelId == m)
      = taskTrace m msg now rt o := by
  refine List.filter_eq_self.mpr ?_
  intro op hop
  have hmod : op.modelId = m := by
    simp only [taskTrace, List.mem_cons, List.mem_append, List.mem_map] at hop
    rcases hop with rfl | ⟨c0, _, rfl⟩ | htail
    · rfl
    · by_cases hf : c0.finished <;> simp [chunkOp, hf, StoreOp.modelId]
    · cases hfail : o.failure with
      | some e => rw [hfail] at htail; simp at htail; rw [htail]; rfl
      | none => rw [hfail] at htail; simp at htail
  simp [hmod]

theorem innerFold_chunkOps (m msg : String) (rt now : Nat)
    (chunks : List StreamChunk) (im : List (String × ModelResponse))
    (r : ModelResponse) (hr : alookup im msg = some r) :
    ∃ im', innerFold (chunks.map (chunkOp m msg rt now)) (some im) = some im' ∧
      alookup im' msg = some (chunks.foldl (chunkEff rt) r) := by
  induction chunks generalizing im r with
  | nil => exact ⟨im, rfl, by simpa using hr⟩
  | cons ch rest ih =>
    have hstep : opInnerStep (chunkOp m msg rt now ch) (some im)
        = some (aset im msg (chunkEff rt r ch)) := by
      by_cases hf : ch.finished
      · simp [chunkOp, hf, opInnerStep, hr, chunkEff]
      · simp [chunkOp, hf, opInnerStep, hr, chunkEff]
    obtain ⟨im', h1, h2⟩ := ih (aset im msg (chunkEff rt r ch)) (chunkEff rt r ch)
      (alookup_aset_self im msg _)
    refine ⟨im', ?_, by simpa [List.foldl_cons] using h2⟩
    simpa [innerFold, List.foldl_cons, hstep] using h1

theorem innerFold_taskTrace (m msg : String) (now rt : Nat) (o : TaskOutcome)
    (im : Option (List (String × ModelResponse))) :
    (innerFold (taskTrace m msg now rt o) im).bind (fun inner => alookup inner msg)
      = some (taskFinal m now rt o) := by
  have hadd : opInnerStep (.add m msg (loadingResponse m now) now) im
      = some (aset (im.getD []) msg (loadingResponse m now)) := rfl
  obtain ⟨im', h1, h2⟩ := innerFold_chunkOps m msg rt now o.chunks
    (aset (im.getD []) msg (loadingResponse m now)) (loadingResponse m now)
    (alookup_aset_self _ _ _)
  simp only [taskTrace, innerFold, List.foldl_cons, List.foldl_append]
  rw [hadd]
  simp only [innerFold] at h1
  rw [h1]
  cases hfail : o.failure with
  | none =>
    simp only [List.foldl_nil]
    simp [h2, taskFinal, hfail]
  | some e =>
    simp only [List.foldl_cons, List.foldl_nil]
    have hpatch : opInnerStep (.patch m msg (errorPatch e) now) (some im')
        = some (aset im' msg
            (applyPatch (o.chunks.foldl (chunkEff rt) (loadingResponse m now))
              (errorPatch e))) := by
      simp [opInnerStep, h2]
    rw [hpatch]
    simp [taskFinal, hfail, alookup_aset_self]

theorem chunkEff_error (rt : Nat) (r : ModelResponse) (ch : StreamChunk) :
    (chunkEff rt r ch).error = r.error := by
  by_cases hf : ch.finished <;> simp [chunkEff, hf, applyPatch, finishPatch]

theorem chunkFoldl_error (rt : Nat) (chunks : List StreamChunk) (r : ModelResponse) :
    (chunks.foldl (chunkEff rt) r).error = r.error := by
  induction chunks generalizing r with
  | nil => rfl
  | cons ch rest ih => simp [List.foldl_cons, ih, chunkEff_error]

theorem chunkEff_loading_false (rt : Nat) (r : ModelResponse) (ch : StreamChunk)
    (h : r.loading = false) : (chunkEff rt r ch).loading = false := by
  by_cases hf : ch.finished <;> simp [chunkEff, hf, applyPatch, finishPatch, h]

theorem chunkFoldl_loading_false (rt : Nat) (chunks : List StreamChunk)
    (r : ModelResponse) (h : r.loading = false) :
    (chunks.foldl (chunkEff rt) r).loading = false := by
  induction chunks generalizing r with
  | nil => exact h
  | cons ch rest ih => simp [List.foldl_cons, ih _ (chunkEff_loading_false rt r ch h)]

theorem chunkFoldl_loading_of_finished (rt : Nat) (chunks : List StreamChunk)
    (r : ModelResponse) (h : chunks.any (fun ch => ch.finished) = true) :
    (chunks.foldl (chunkEff rt) r).loading = false := by
  induction chunks generalizing r with
  | nil => simp at h
  | cons ch rest ih =>
    by_cases hf : ch.finished
    · simp only [List.foldl_cons]
      apply chunkFoldl_loading_false
      simp [chunkEff, hf, applyPatch, finishPatch]
    · simp only [List.any_cons, hf, Bool.false_or] at h
      simpa [List.foldl_cons] using ih (chunkEff rt r ch) h

theorem taskTrace_slot (st : StoreState) (m msg : String) (now rt : Nat)
    (o : TaskOutcome) (h : st.currentSession.isSome = true) :
    slotLookup (applyOps (taskTrace m msg now rt o) st) m msg
      = some (taskFinal m now rt o) := by
  rw [slotLookup_eq_innerMap, applyOps_innerMapO _ _ _ h, taskTrace_filter_self]
  exact innerFold_taskTrace m msg now rt o (innerMapO st m)

/-- C4: the fan-out runs every selected model's task to completion in any
event-loop interleaving (`allOps` is any total order of store writes whose
per-model subsequence is that model's task trace, which in particular
contains every task's writes — the `Promise.allSettled` join).  A model
whose call throws gets `loading = false` with the error message written to
its own slot (no exception escapes — writes are the only effect); every
model's final slot equals what its trace alone produces, so one model's
failure neither cancels nor alters any sibling; and a model with a
successful outcome containing a finished chunk ends `loading = false` with
no error. -/
theorem c4_fanout_failure_isolation (st : StoreState) (c : ChatSession)
    (models : List String) (outcomes : String → TaskOutcome) (messageId : String)
    (now rt : Nat) (allOps : List StoreOp)
    (hcur : st.currentSession = some c)
    (hproj : ∀ m ∈ models, allOps.filter (fun op => op.modelId == m)
        = taskTrace m messageId now rt (outcomes m)) :
    (∀ m ∈ models, slotLookup (applyOps allOps st) m messageId
        = some (taskFinal m now rt (outcomes m))) ∧
    (∀ m ∈ models, slotLookup (applyOps allOps st) m messageId
        = slotLookup (applyOps (taskTrace m messageId now rt (outcomes m)) st)
            m messageId) ∧
    (∀ b ∈ models, ∀ e, (outcomes b).failure = some e →
      ∃ r, slotLookup (applyOps allOps st) b messageId = some r ∧
        r.loading = false ∧ r.error = some e ∧ r.content = "") ∧
    (∀ a ∈ models, (outcomes a).failure = none →
      (outcomes a).chunks.any (fun ch => ch.finished) = true →
      ∃ r, slotLookup (applyOps allOps st) a messageId = some r ∧
        r.loading = false ∧ r.error = none) := by
  have hsome : st.currentSession.isSome = true := by simp [hcur]
  have hmain : ∀ m ∈ models, slotLookup (applyOps allOps st) m messageId
      = some (taskFinal m now rt (outcomes m)) := by
    intro m hm
    rw [slotLookup_eq_innerMap, applyOps_innerMapO _ _ _ hsome, hproj m hm]
    exact innerFold_taskTrace m messageId now rt (outcomes m) (innerMapO st m)
  refine ⟨hmain, ?_, ?_, ?_⟩
  · intro m hm
    rw [hmain m hm, taskTrace_slot st m messageId now rt (outcomes m) hsome]
  · intro b hb e hfail
    refine ⟨taskFinal b now rt (outcomes b), hmain b hb, ?_, ?_, ?_⟩ <;>
      simp [taskFinal, hfail, applyPatch, errorPatch]
  · intro a ha hfail hfin
    refine ⟨taskFinal a now rt (outcomes a), hmain a ha, ?_, ?_⟩
    · simp only [taskFinal, hfail]
      exact chunkFoldl_loading_of_finished rt (outcomes a).chunks _ hfin
    · simp only [taskFinal, hfail]
      rw [chunkFoldl_error]
      rfl

/-- Concrete successful outcome for the fan-out witness (model A). -/
def wOutA : TaskOutcome :=
  { chunks := [⟨"He", false, none, none⟩, ⟨"llo", false, none, none⟩,
      ⟨"", true, some 10, none⟩] }

/-- Concrete failing outcome for the fan-out witness (model B). -/
def wOutB : TaskOutcome := { chunks := [], failure := some "HTTP 500" }

/-- Concrete successful outcome for the fan-out witness (model C). -/
def wOutC : TaskOutcome :=
  { chunks := [⟨"Hi", false, none, none⟩, ⟨"", true, some 4, none⟩] }

/-- The witness outcome assignment. -/
def wOutcomes : String → TaskOutcome := fun m =>
  if m = "deepseek-chat" then wOutA
  else if m = "qwen-turbo" then wOutB
  else wOutC

/-- A concrete interleaved execution order of the three tasks' writes. -/
def wOps : List StoreOp :=
  [ .add "deepseek-chat" "m9" (loadingResponse "deepseek-chat" 7) 7,
    .add "qwen-turbo" "m9" (loadingResponse "qwen-turbo" 7) 7,
    chunkOp "deepseek-chat" "m9" 5 7 ⟨"He", false, none, none⟩,
    .add "moonshot-v1-8k" "m9" (loadingResponse "moonshot-v1-8k" 7) 7,
    .patch "qwen-turbo" "m9" (errorPatch "HTTP 500") 7,
    chunkOp "moonshot-v1-8k" "m9" 5 7 ⟨"Hi", false, none, none⟩,
    chunkOp "deepseek-chat" "m9" 5 7 ⟨"llo", false, none, none⟩,
    chunkOp "moonshot-v1-8k" "m9" 5 7 ⟨"", true, some 4, none⟩,
    chunkOp "deepseek-chat" "m9" 5 7 ⟨"", true, some 10, none⟩ ]

/-- C4 witness: in a concrete interleaving of three tasks where the
`qwen-turbo` task fails, the failing slot carries the error and the
`deepseek-chat` slot reaches its own terminal value regardless. -/
theorem c4_fanout_failure_isolation_witness :
    sampleState.currentSession = some sampleSession ∧
    slotLookup (applyOps wOps sampleState) "qwen-turbo" "m9"
      = some (taskFinal "qwen-turbo" 7 5 wOutB) ∧
    slotLookup (applyOps wOps sampleState) "deepseek-chat" "m9"
      = some (taskFinal "deepseek-chat" 7 5 wOutA) := by
  have hproj : ∀ m ∈ ["deepseek-chat", "qwen-turbo", "moonshot-v1-8k"],
      wOps.filter (fun op => op.modelId == m)
        = taskTrace m "m9" 7 5 (wOutcomes m) := by
    intro m hm
    simp only [List.mem_cons, List.not_mem_nil, or_false] at hm
    rcases hm with rfl | rfl | rfl
    · rfl
    · rfl
    · rfl
  have h := c4_fanout_failure_isolation sampleState sampleSession
    ["deepseek-chat", "qwen-turbo", "moonshot-v1-8k"] wOutcomes "m9" 7 5 wOps
    rfl hproj
  refine ⟨rfl, ?_, ?_⟩
  · simpa [wOutcomes] using h.1 "qwen-turbo" (by simp)
  · simpa [wOutcomes] using h.1 "deepseek-chat" (by simp)

/-- JSON values, the parse trees of `JSON.stringify` / `JSON.parse`.
The serialization between a JSON tree and its text is a bijection on
well-formed documents, so export/import are modelled at the tree level. -/
inductive Json where
  | null
  | bool (b : Bool)
  | num (q : ℚ)
  | str (s : String)
  | arr (items : List Json)
  | obj (fields : List (String × Json))

/-- JavaScript truthiness of a parsed JSON value. -/
def Json.truthy : Json → Bool
  | .null => false
  | .bool b => b
  | .num q => decide (q ≠ 0)
  | .str s => decide (s ≠ "")
  | .arr _ => true
  | .obj _ => true

/-- `Array.isArray`. -/
def Json.isArr : Json → Bool
  | .arr _ => true
  | _ => false

/-- Property access `value.key` on a parse result (undefined on
non-objects and missing keys). -/
def getField (j : Json) (k : String) : Option Json :=
  match j with
  | .obj fs => alookup fs k
  | _ => none

/-- The validation performed by `importSession`:
`!session.id || !session.title || !Array.isArray(session.messages)`
rejects the document. -/
def validateSession (j : Json) : Bool :=
  ((getField j "id").map Json.truthy).getD false &&
  ((getField j "title").map Json.truthy).getD false &&
  ((getField j "messages").map Json.isArr).getD false

/-- A field that `JSON.stringify` omits when the value is `undefined`. -/
def optField (name : String) : Option Json → List (String × Json)
  | none => []
  | some v => [(name, v)]

def Json.asStr : Json → Option String
  | .str s => some s
  | _ => none

def Json.asBool : Json → Option Bool
  | .bool b => some b
  | _ => none

def Json.asQ : Json → Option ℚ
  | .num q => some q
  | _ => none

def Json.asNat : Json → Option Nat
  | .num q => if q.den = 1 ∧ 0 ≤ q.num then some q.num.toNat else none
  | _ => none

/-- Reads a field through a value decoder. -/
def getAs {α : Type} (f : Json → Option α) (j : Json) (k : String) : Option α :=
  (getField j k).bind f

/-- Reads an optional field: absence decodes to `none`, a present field
must decode. -/
def getOpt {α : Type} (f : Json → Option α) (j : Json) (k : String) :
    Option (Option α) :=
  match getField j k with
  | none => some none
  | some v => (f v).map some

/-- Decodes every element or fails. -/
def mapMO {α β : Type} (g : α → Option β) : List α → Option (List β)
  | [] => some []
  | a :: rest =>
    match g a with
    | none => none
    | some b => (mapMO g rest).map (fun bs => b :: bs)

def encodeRole : Role → Json
  | .user => .str "user"
  | .assistant => .str "assistant"
  | .system => .str "system"

def decodeRole : Json → Option Role
  | .str "user" => some .user
  | .str "assistant" => some .assistant
  | .str "system" => some .system
  | _ => none

def encodeProvider : AIProvider → Json
  | .deepseek => .str "deepseek"
  | .aliyun => .str "aliyun"
  | .volcengine => .str "volcengine"
  | .kimi => .str "kimi"
  | .claude => .str "claude"

def decodeProvider : Json → Option AIProvider
  | .str "deepseek" => some .deepseek
  | .str "aliyun" => some .aliyun
  | .str "volcengine" => some .volcengine
  | .str "kimi" => some .kimi
  | .str "claude" => some .claude
  | _ => none

def decodeStrList : Json → Option (List String)
  | .arr xs => mapMO Json.asStr xs
  | _ => none

/-- Serializes a `Message` (optional `images` omitted when absent). -/
def encodeMessage (m : Message) : Json :=
  .obj ([("id", .str m.id), ("role", encodeRole m.role),
         ("content", .str m.content), ("timestamp", .num m.timestamp)]
        ++ optField "images" (m.images.map (fun l => .arr (l.map .str))))

def decodeMessage (j : Json) : Option Message :=
  match getAs Json.asStr j "id", (getField j "role").bind decodeRole,
      getAs Json.asStr j "content", getAs Json.asNat j "timestamp",
      getOpt decodeStrList j "images" with
  | some id, some role, some content, some ts, some images =>
    some { id := id, role := role, content := content, timestamp := ts,
           images := images }
  | _, _, _, _, _ => none

def decodeMessageList : Json → Option (List Message)
  | .arr xs => mapMO decodeMessage xs
  | _ => none

/-- Serializes a `ModelResponse` (optional fields omitted when absent). -/
def encodeMR (r : ModelResponse) : Json :=
  .obj ([("modelId", .str r.modelId), ("content", .str r.content),
         ("loading", .bool r.loading), ("timestamp", .num r.timestamp)]
        ++ optField "error" (r.error.map .str)
        ++ optField "responseTime" (r.responseTime.map (fun n => .num n))
        ++ optField "tokens" (r.tokens.map (fun n => .num n))
        ++ optField "cost" (r.cost.map .num))

def decodeMR (j : Json) : Option ModelResponse :=
  match getAs Json.asStr j "modelId", getAs Json.asStr j "content",
      getAs Json.asBool j "loading", getAs Json.asNat j "timestamp",
      getOpt Json.asStr j "error", getOpt Json.asNat j "responseTime",
      getOpt Json.asNat j "tokens", getOpt Json.asQ j "cost" with
  | some mid, some content, some loading, some ts, some error, some rtime,
    some tok, some cost =>
    some { modelId := mid, content := content, loading := loading,
           error := error, responseTime := rtime, tokens := tok, cost := cost,
           timestamp := ts }
  | _, _, _, _, _, _, _, _ => none

def decodeInnerResponses : Json → Option (List (String × ModelResponse))
  | .obj gs => mapMO (fun q => (decodeMR q.2).map (fun v => (q.1, v))) gs
  | _ => none

def decodeResponses : Json → Option (List (String × List (String × ModelResponse)))
  | .obj fs => mapMO (fun p => (decodeInnerResponses p.2).map (fun v => (p.1, v))) fs
  | _ => none

/-- Serializes a whole session, the `JSON.stringify(session)` parse tree
(optional `title` omitted when absent). -/
def encodeSession (s : ChatSession) : Json :=
  .obj ([("id", .str s.id)]
        ++ optField "title" (s.title.map .str)
        ++ [("systemPrompt", .str s.systemPrompt),
            ("selectedModels", .arr (s.selectedModels.map .str)),
            ("messages", .arr (s.messages.map encodeMessage)),
            ("responses", .obj (s.responses.map (fun p =>
              (p.1, .obj (p.2.map (fun q => (q.1, encodeMR q.2))))))),
            ("createdAt", .num s.createdAt), ("updatedAt", .num s.updatedAt),
            ("model", .str s.model), ("provider", encodeProvider s.provider),
            ("tokenCount", .num s.tokenCount), ("cost", .num s.cost),
            ("temperature", .num s.temperature), ("maxTokens", .num s.maxTokens)])

/-- Reconstruction of the typed session from a parse tree: the typed
counterpart of the unchecked `JSON.parse(data) as ChatSession` cast for
documents of the exported shape. -/
def decodeSession (j : Json) : Option ChatSession :=
  match getAs Json.asStr j "id", getOpt Json.asStr j "title",
      getAs Json.asStr j "systemPrompt",
      (getField j "selectedModels").bind decodeStrList,
      (getField j "messages").bind decodeMessageList,
      (getField j "responses").bind decodeResponses,
      getAs Json.asNat j "createdAt", getAs Json.asNat j "updatedAt",
      getAs Json.asStr j "model", (getField j "provider").bind decodeProvider,
      getAs Json.asNat j "tokenCount", getAs Json.asQ j "cost",
      getAs Json.asQ j "temperature", getAs Json.asNat j "maxTokens" with
  | some id, some title, some sp, some sel, some msgs, some resp, some ca,
    some ua, some mdl, some prov, some tc, some cost, some temp, some mt =>
    some { id := id, title := title, systemPrompt := sp, selectedModels := sel,
           messages := msgs, responses := resp, createdAt := ca,
           updatedAt := ua, model := mdl, provider := prov, tokenCount := tc,
           cost := cost, temperature := temp, maxTokens := mt }
  | _, _, _, _, _, _, _, _, _, _, _, _, _, _ => none

/-- Store action `exportSession`: serialize the session found by id
(`none` models the empty-string return for an unknown id, which
`JSON.parse` then rejects). -/
def exportSession (st : StoreState) (sessionId : String) : Option Json :=
  (st.sessions.find? (fun s => s.id == sessionId)).map encodeSession

/-- Store action `importSession`: reject on parse failure or failed
validation, else prepend the parsed session.  The source stores the parse
result through an unchecked cast; `decodeSession` is its typed
counterpart, total on every document `exportSession` produces. -/
def importSession (j? : Option Json) (st : StoreState) : Bool × StoreState :=
  match j? with
  | none => (false, st)
  | some j =>
    if validateSession j then
      (true,
        match decodeSession j with
        | some s => { st with sessions := s :: st.sessions }
        | none => st)
    else (false, st)

theorem asNat_natCast (n : Nat) : Json.asNat (.num (n : ℚ)) = some n := by
  have h1 : ((n : ℚ)).den = 1 := rfl
  have h2 : ((n : ℚ)).num = (n : ℤ) := rfl
  have h3 : ((n : ℤ)).toNat = n := rfl
  simp [Json.asNat, h1, h2, h3, Int.natCast_nonneg]

theorem mapMO_map_inverse {α β : Type} (f : α → β) (g : β → Option α)
    (h : ∀ a, g (f a) = some a) (l : List α) : mapMO g (l.map f) = some l := by
  induction l with
  | nil => rfl
  | cons a rest ih => simp [mapMO, h, ih]

theorem decodeRole_encodeRole (r : Role) : decodeRole (encodeRole r) = some r := by
  cases r <;> rfl

theorem decodeProvider_encodeProvider (p : AIProvider) :
    decodeProvider (encodeProvider p) = some p := by
  cases p <;> rfl

theorem decodeStrList_encode (l : List String) :
    decodeStrList (.arr (l.map .str)) = some l := by
  simpa [decodeStrList] using
    mapMO_map_inverse Json.str Json.asStr (fun a => rfl) l

theorem decodeMessage_encodeMessage (m : Message) :
    decodeMessage (encodeMessage m) = some m := by
  obtain ⟨id, role, content, ts, images⟩ := m
  cases images with
  | none =>
    simp [decodeMessage, encodeMessage, optField, getAs, getOpt, getField,
      alookup, Json.asStr, asNat_natCast, decodeRole_encodeRole]
  | some l =>
    simp [decodeMessage, encodeMessage, optField, getAs, getOpt, getField,
      alookup, Json.asStr, asNat_natCast, decodeRole_encodeRole,
      decodeStrList_encode]

theorem decodeMessageList_encode (msgs : List Message) :
    decodeMessageList (.arr (msgs.map encodeMessage)) = some msgs := by
  simp only [decodeMessageList]
  exact mapMO_map_inverse _ _ decodeMessage_encodeMessage msgs

theorem decodeMR_encodeMR (r : ModelResponse) : decodeMR (encodeMR r) = some r := by
  obtain ⟨mid, content, loading, error, rtime, tok, cost, ts⟩ := r
  cases error <;> cases rtime <;> cases tok <;> cases cost <;>
    simp [decodeMR, encodeMR, optField, getAs, getOpt, getField, alookup,
      Json.asStr, Json.asBool, Json.asQ, asNat_natCast]

theorem decodeInnerResponses_encode (inner : List (String × ModelResponse)) :
    decodeInnerResponses (.obj (inner.map (fun q => (q.1, encodeMR q.2))))
      = some inner := by
  simp only [decodeInnerResponses]
  exact mapMO_map_inverse _ _ (fun q => by simp [decodeMR_encodeMR]) inner

theorem decodeResponses_encode
    (resp : List (String × List (String × ModelResponse))) :
    decodeResponses (.obj (resp.map (fun p =>
      (p.1, .obj (p.2.map (fun q => (q.1, encodeMR q.2))))))) = some resp := by
  simp only [decodeResponses]
  exact mapMO_map_inverse _ _ (fun p => by simp [decodeInnerResponses_encode]) resp

theorem decodeSession_encodeSession (s : ChatSession) :
    decodeSession (encodeSession s) = some s := by
  obtain ⟨id, title, sp, sel, msgs, resp, ca, ua, mdl, prov, tc, cost, temp, mt⟩ := s
  cases title <;>
    simp [decodeSession, encodeSession, optField, getAs, getOpt, getField,
      alookup, Json.asStr, Json.asQ, asNat_natCast, decodeStrList_encode,
      decodeMessageList_encode, decodeResponses_encode,
      decodeProvider_encodeProvider]

theorem validateSession_encode (s : ChatSession) (t : String)
    (htitle : s.title = some t) (ht : t ≠ "") (hid : s.id ≠ "") :
    validateSession (encodeSession s) = true := by
  simp [validateSession, encodeSession, getField, alookup, optField, htitle,
    Json.truthy, Json.isArr, hid, ht]

/-- A session that `createNewSession` can legitimately leave in the list:
no title set yet. -/
def untitledSession : ChatSession :=
  { sampleSession with id := "s0", title := none }

/-- A store whose only session is untitled. -/
def untitledState : StoreState :=
  { initialState with sessions := [untitledSession] }

/-- C6 counterexample: `untitledSession` is present in the sessions list,
yet importing its own export returns `false` — the round-trip does not
succeed for every stored session, because `importSession` treats the
(optional, possibly absent) `title` as mandatory. -/
theorem c6_roundtrip_fails_for_untitled_session :
    untitledSession ∈ untitledState.sessions ∧
    (importSession (exportSession untitledState "s0") untitledState).1 = false :=
  ⟨by simp [untitledState], rfl⟩

/-- C6 (amended): for every stored session whose `title` is present and
non-empty (its `id` being non-empty as `generateId` output), exporting and
re-importing succeeds and prepends that very session — `messages`,
`responses` and `systemPrompt` identical; and an import is rejected exactly
when the `id` or `title` field is absent or falsy or the `messages` field
is absent or not an array. -/
theorem c6_export_import_roundtrip (st : StoreState) (s : ChatSession)
    (t : String) (hfind : st.sessions.find? (fun x => x.id == s.id) = some s)
    (htitle : s.title = some t) (ht : t ≠ "") (hid : s.id ≠ "") :
    importSession (exportSession st s.id) st
      = (true, { st with sessions := s :: st.sessions }) ∧
    ∀ (j : Json) (st' : StoreState),
      ((importSession (some j) st').1 = false ↔
        (((getField j "id").map Json.truthy).getD false = false ∨
         ((getField j "title").map Json.truthy).getD false = false ∨
         ((getField j "messages").map Json.isArr).getD false = false)) := by
  constructor
  · have hexp : exportSession st s.id = some (encodeSession s) := by
      simp [exportSession, hfind]
    rw [hexp]
    simp [importSession, validateSession_encode s t htitle ht hid,
      decodeSession_encodeSession]
  · intro j st'
    have hfst : (importSession (some j) st').1 = validateSession j := by
      by_cases hv : validateSession j = true
      · simp [importSession, hv]
      · simp [importSession, hv]
    rw [hfst]
    simp only [validateSession]
    cases h1 : ((getField j "id").map Json.truthy).getD false <;>
      cases h2 : ((getField j "title").map Json.truthy).getD false <;>
        cases h3 : ((getField j "messages").map Json.isArr).getD false <;>
          simp

/-- C6 witness: round-tripping the titled sample session through
export/import at its concrete store. -/
theorem c6_export_import_roundtrip_witness :
    sampleState.sessions.find? (fun x => x.id == sampleSession.id)
      = some sampleSession ∧
    sampleSession.title = some "会话一" ∧
    importSession (exportSession sampleState sampleSession.id) sampleState
      = (true, { sampleState with
          sessions := sampleSession :: sampleState.sessions }) :=
  ⟨rfl, rfl,
    (c6_export_import_roundtrip sampleState sampleSession "会话一" rfl rfl
      (by decide) (by decide)).1⟩

end MT
